import Mathlib

/-!
# Thread manager and CPU device context of oneflow

A shallow embedding of

* `src/oneflow/core/thread/thread_manager.cpp`
  (`ThreadMgr::ThreadMgr`, `ThreadMgr::GetThrd`, `ThreadMgr::~ThreadMgr`), and
* `src/oneflow/core/device/cpu_device_context.h` (`CpuDeviceCtx::AddCallBack`),

followed by the properties proved about them.

Conventions of the embedding.

* A C++ object created by `new CpuThread(id)` or `new GpuThread(id, dev)` is the
  record of the constructor call that created it.
* `std::vector<Thread*>` is a `List Thread`; `push_back` appends at the end.
* A function that can throw or abort returns `Except Failure _`.
* The destructor, whose effects are all calls into other objects, returns the
  list of the calls it makes, in program order.
* `int64_t` values are mathematical integers.  The one place where a machine
  conversion changes a value, the implicit `int64_t -> size_t` conversion of the
  argument of `std::vector::at`, is modelled with an explicit `% 2 ^ 64`.
  The counter `thrd_id` of the constructor is incremented once for every
  `push_back`, so it is the current roster size; lemma `thrd_id_in_int64` shows
  that it stays inside the `int64_t` range whenever the roster has fewer than
  `2 ^ 63` entries, so `thrd_id++` does not overflow.
-/

namespace oneflow

/-! ## Data model -/

deriving instance DecidableEq for Except

/-- How a call that does not return normally ends. -/
inductive Failure where
  /-- The exception `std::out_of_range` thrown by `std::vector::at`. -/
  | out_of_range
  /-- A fatal abort of the process (a failed check). -/
  | fatal
  deriving DecidableEq, Repr

/-- A worker object, identified by the constructor call that created it:
`new CpuThread(thrd_id)` or `new GpuThread(thrd_id, device_id)`. -/
inductive Thread where
  | CpuThread (thrd_id : Int)
  | GpuThread (thrd_id : Int) (device_id : Int)
  deriving DecidableEq, Repr

/-- The thread ID a worker was constructed with (first constructor argument). -/
def Thread.thrd_id : Thread → Int
  | .CpuThread id => id
  | .GpuThread id _ => id

/-- Whether the worker is a `GpuThread`. -/
def Thread.isGpuThread : Thread → Bool
  | .CpuThread _ => false
  | .GpuThread _ _ => true

/-- The values read from `JobDesc::Singleton()` by the constructor.  The getters
are declared in `job_desc.h`; each is compared with the `int64_t` loop variable,
so each is taken as an integer. -/
structure JobDesc where
  CpuDeviceNum : Int
  GpuDeviceNum : Int
  DecodeWorkerNum : Int
  BoxingWorkerNum : Int
  PersistenceWorkerNum : Int
  deriving DecidableEq, Repr

/-- The thread manager: its only data member is the roster `threads_`. -/
structure ThreadMgr where
  threads_ : List Thread
  deriving DecidableEq, Repr

/-- The local state of the constructor body: the roster built so far and the
local variable `thrd_id`. -/
structure CtorState where
  threads_ : List Thread
  thrd_id : Int
  deriving DecidableEq, Repr

/-! ## `ThreadMgr::ThreadMgr` -/

/-- The loop `for (i = ...; i < end_; ++i) body` started at `i` in state `s`.
The first argument bounds the number of iterations; `FOR_RANGE` passes the
exact number the loop needs (see `FOR_RANGE.loop_fuel`). -/
def FOR_RANGE.loop {σ : Type} (end_ : Int) (body : Int → σ → σ) : Nat → Int → σ → σ
  | 0, _, s => s
  | fuel + 1, i, s =>
    if i < end_ then FOR_RANGE.loop end_ body fuel (i + 1) (body i s) else s

/-- Modelled from the spec: the macro `FOR_RANGE(type, i, begin, end)` is defined
in a header that is not part of the sources at hand; it is the counting loop
`for (type i = begin; i < end; ++i)`, which runs its body once for every `i` of
the half-open range and not at all when `end <= begin`. -/
def FOR_RANGE {σ : Type} (begin_ end_ : Int) (body : Int → σ → σ) (s : σ) : σ :=
  FOR_RANGE.loop end_ body (end_ - begin_).toNat begin_ s

/-- The call `threads_.push_back(t)`. -/
def push_back {α : Type} (v : List α) (t : α) : List α := v ++ [t]

/-- Body of `ADD_CPU_THREAD`: `threads_.push_back(new CpuThread(thrd_id++));` -/
def ADD_CPU_THREAD.body (_i : Int) (s : CtorState) : CtorState :=
  { threads_ := push_back s.threads_ (Thread.CpuThread s.thrd_id)
    thrd_id := s.thrd_id + 1 }

/-- The local macro
`ADD_CPU_THREAD(n)  FOR_RANGE(int64_t, i, 0, n) { threads_.push_back(new CpuThread(thrd_id++)); }` -/
def ADD_CPU_THREAD (n : Int) (s : CtorState) : CtorState :=
  FOR_RANGE 0 n ADD_CPU_THREAD.body s

/-- Body of the accelerator loop: `threads_.push_back(new GpuThread(thrd_id++, i));` -/
def ADD_GPU_THREAD.body (i : Int) (s : CtorState) : CtorState :=
  { threads_ := push_back s.threads_ (Thread.GpuThread s.thrd_id i)
    thrd_id := s.thrd_id + 1 }

/-- The block between `#ifdef WITH_CUDA` and `#endif`: the accelerator loop when
the flag is defined, nothing otherwise (`GpuDeviceNum` is then not read). -/
def ADD_GPU_THREAD (WITH_CUDA : Bool) (job_desc : JobDesc) (s : CtorState) : CtorState :=
  if WITH_CUDA then FOR_RANGE 0 job_desc.GpuDeviceNum ADD_GPU_THREAD.body s else s

/-- The local state at the end of the constructor body. -/
def ThreadMgr.ctorBody (WITH_CUDA : Bool) (job_desc : JobDesc) : CtorState :=
  let s : CtorState := { threads_ := [], thrd_id := 0 }
  let s := ADD_CPU_THREAD job_desc.CpuDeviceNum s
  let s := ADD_GPU_THREAD WITH_CUDA job_desc s
  let s := ADD_CPU_THREAD job_desc.DecodeWorkerNum s
  let s := ADD_CPU_THREAD job_desc.BoxingWorkerNum s
  let s := ADD_CPU_THREAD 1 s
  ADD_CPU_THREAD job_desc.PersistenceWorkerNum s

/-- The constructor `ThreadMgr::ThreadMgr()`, with the compile-time flag
`WITH_CUDA` and the job description as explicit inputs.  No statement of the
body checks anything, so the body has no failing path. -/
def ThreadMgr.ctor (WITH_CUDA : Bool) (job_desc : JobDesc) : Except Failure ThreadMgr :=
  .ok { threads_ := (ThreadMgr.ctorBody WITH_CUDA job_desc).threads_ }

/-! ## `ThreadMgr::GetThrd` -/

/-- The implicit conversion of an `int64_t` to `size_t` (modulo `2 ^ 64`). -/
def size_t_of_int64 (x : Int) : Nat := (x % 2 ^ 64).toNat

/-- The call `v.at(pos)` of `std::vector`: the element at `pos`, or the
exception `std::out_of_range` when `pos >= v.size()`. -/
def vector_at {α : Type} (v : List α) (pos : Nat) : Except Failure α :=
  match v[pos]? with
  | some x => .ok x
  | none => .error Failure.out_of_range

/-- The method `Thread* ThreadMgr::GetThrd(int64_t thrd_id) { return threads_.at(thrd_id); }`. -/
def ThreadMgr.GetThrd (self : ThreadMgr) (thrd_id : Int) : Except Failure Thread :=
  vector_at self.threads_ (size_t_of_int64 thrd_id)

/-! ## `ThreadMgr::~ThreadMgr` -/

/-- The actor commands; only `kStopThread` is named in the sources at hand. -/
inductive ActorCmd where
  | kStopThread
  | other (code : Nat)
  deriving DecidableEq, Repr

/-- Modelled from the spec: `ActorMsg::BuildCommandMsg` is declared in a header
that is not part of the sources at hand.  A command message is the record of the
two arguments it was built with; the spec calls the first one the sender, `-1`
being the sentinel that stands for the system. -/
inductive ActorMsg where
  | BuildCommandMsg (sender : Int) (cmd : ActorCmd)
  deriving DecidableEq, Repr

/-- One operand of the `<<` chain of a `LOG(INFO)` statement. -/
inductive LogPart where
  | str (text : String)
  | num (value : Nat)
  deriving DecidableEq, Repr

/-- The calls the destructor makes on other objects. -/
inductive Event where
  /-- The call `threads_[i]->GetMsgChannelPtr()->Send(msg)`. -/
  | Send (i : Nat) (msg : ActorMsg)
  /-- The statement `delete threads_[i]`. -/
  | Delete (i : Nat)
  /-- The statement `LOG(INFO) << ...`, with the operands written to the log. -/
  | Log (line : List LogPart)
  deriving DecidableEq, Repr

/-- The operands of `"actor thread " << i << " finish"`. -/
def finishLine (i : Nat) : List LogPart :=
  [LogPart.str "actor thread ", LogPart.num i, LogPart.str " finish"]

/-- Body of the destructor loop for index `i`, appending its three calls to the
trace `tr`. -/
def ThreadMgr.dtorBody (i : Nat) (tr : List Event) : List Event :=
  let msg := ActorMsg.BuildCommandMsg (-1) ActorCmd.kStopThread
  let tr := tr ++ [Event.Send i msg]
  let tr := tr ++ [Event.Delete i]
  tr ++ [Event.Log (finishLine i)]

/-- The loop `for (size_t i = ...; i < size; ++i) dtorBody` started at `i` with
trace `tr`; the first argument bounds the number of iterations. -/
def ThreadMgr.dtorLoop (size : Nat) : Nat → Nat → List Event → List Event
  | 0, _, tr => tr
  | fuel + 1, i, tr =>
    if i < size then ThreadMgr.dtorLoop size fuel (i + 1) (ThreadMgr.dtorBody i tr) else tr

/-- The destructor `ThreadMgr::~ThreadMgr()`: the trace of the calls it makes.
The loop runs from `0` while `i < threads_.size()`, which takes
`threads_.size()` iterations. -/
def ThreadMgr.dtor (self : ThreadMgr) : List Event :=
  ThreadMgr.dtorLoop self.threads_.length self.threads_.length 0 []

/-! ## `CpuDeviceCtx::AddCallBack` -/

/-- The CPU device context; its only state is the `buf_blob` pointer handed to
the base class `DeviceCtx` (an address). -/
structure CpuDeviceCtx where
  buf_blob : Nat
  deriving DecidableEq, Repr

/-- The method
`void AddCallBack(std::function<void()> callback) const override { callback(); }`.
A `std::function<void()>` is a transformer of the program state `σ`.  The
method is `const`: the pair returned is the context after the call and the
program state after the call. -/
def CpuDeviceCtx.AddCallBack {σ : Type} (self : CpuDeviceCtx) (callback : σ → σ) (s : σ) :
    CpuDeviceCtx × σ :=
  (self, callback s)


/-! ## Definitions used to state the properties -/

/-- The body of a counting loop run `n` times, the loop variable starting at `i`. -/
def FOR_RANGE.iterate {σ : Type} (body : Int → σ → σ) : Nat → Int → σ → σ
  | 0, _, s => s
  | n + 1, i, s => FOR_RANGE.iterate body n (i + 1) (body i s)

/-- The workers `CpuThread(first), ..., CpuThread(first + n - 1)`. -/
def cpuSegment (first : Int) (n : Nat) : List Thread :=
  (List.range n).map fun (k : Nat) => Thread.CpuThread (first + (k : Int))

/-- The workers `GpuThread(first, 0), ..., GpuThread(first + n - 1, n - 1)`. -/
def gpuSegment (first : Int) (n : Nat) : List Thread :=
  (List.range n).map fun (k : Nat) => Thread.GpuThread (first + (k : Int)) (k : Int)

/-- The number of accelerator workers the constructor creates. -/
def gpuCount (WITH_CUDA : Bool) (job_desc : JobDesc) : Nat :=
  if WITH_CUDA then job_desc.GpuDeviceNum.toNat else 0

/-- A valid configuration: no count is negative, and the accelerator count is
zero when accelerator support is not compiled in. -/
def JobDesc.Valid (WITH_CUDA : Bool) (job_desc : JobDesc) : Prop :=
  0 ≤ job_desc.CpuDeviceNum ∧ 0 ≤ job_desc.GpuDeviceNum ∧ 0 ≤ job_desc.DecodeWorkerNum ∧
    0 ≤ job_desc.BoxingWorkerNum ∧ 0 ≤ job_desc.PersistenceWorkerNum ∧
    (WITH_CUDA = false → job_desc.GpuDeviceNum = 0)

instance (WITH_CUDA : Bool) (job_desc : JobDesc) : Decidable (job_desc.Valid WITH_CUDA) := by
  unfold JobDesc.Valid
  infer_instance

/-- The configuration with every negative count replaced by zero, and the
accelerator count replaced by zero when accelerator support is not compiled in. -/
def JobDesc.clamp (WITH_CUDA : Bool) (job_desc : JobDesc) : JobDesc :=
  { CpuDeviceNum := max 0 job_desc.CpuDeviceNum
    GpuDeviceNum := if WITH_CUDA then max 0 job_desc.GpuDeviceNum else 0
    DecodeWorkerNum := max 0 job_desc.DecodeWorkerNum
    BoxingWorkerNum := max 0 job_desc.BoxingWorkerNum
    PersistenceWorkerNum := max 0 job_desc.PersistenceWorkerNum }

/-- The stop command the destructor builds: `ActorMsg::BuildCommandMsg(-1, ActorCmd::kStopThread)`. -/
def stopMsg : ActorMsg := ActorMsg.BuildCommandMsg (-1) ActorCmd.kStopThread

/-- The messages sent in a trace, each with the roster slot it is sent to. -/
def sends : List Event → List (Nat × ActorMsg)
  | [] => []
  | Event.Send i msg :: tr => (i, msg) :: sends tr
  | _ :: tr => sends tr

/-- A callback instrumented with a counter of its runs. -/
def counted {σ : Type} (callback : σ → σ) : σ × Nat → σ × Nat :=
  fun p => (callback p.1, p.2 + 1)

/-- The three calls of one iteration of the destructor loop, for roster slot `i`. -/
def stopJoinLog (i : Nat) : List Event :=
  [Event.Send i stopMsg, Event.Delete i, Event.Log (finishLine i)]

/-- The roster slots the messages of a trace are sent to, in trace order. -/
def sendSlots (tr : List Event) : List Nat := (sends tr).map Prod.fst

/-- Invariant of the constructor body: `thrd_id` is the roster size and the
worker at every roster position was constructed with that position as its ID. -/
def DenseIds (s : CtorState) : Prop :=
  s.thrd_id = (s.threads_.length : Int) ∧
    ∀ (i : Nat) (t : Thread), s.threads_[i]? = some t → t.thrd_id = (i : Int)

/-! ## Lemmas on the loops of the constructor -/

theorem FOR_RANGE.loop_eq_iterate {σ : Type} (end_ : Int) (body : Int → σ → σ) :
    ∀ (fuel : Nat) (i : Int) (s : σ), (end_ - i).toNat ≤ fuel →
      FOR_RANGE.loop end_ body fuel i s = FOR_RANGE.iterate body (end_ - i).toNat i s := by
  intro fuel
  induction fuel with
  | zero =>
    intro i s h
    have h0 : (end_ - i).toNat = 0 := by omega
    simp [FOR_RANGE.loop, h0, FOR_RANGE.iterate]
  | succ fuel ih =>
    intro i s h
    by_cases hlt : i < end_
    · have hstep : (end_ - i).toNat = (end_ - (i + 1)).toNat + 1 := by omega
      have hfuel : (end_ - (i + 1)).toNat ≤ fuel := by omega
      rw [FOR_RANGE.loop, if_pos hlt, ih (i + 1) (body i s) hfuel, hstep, FOR_RANGE.iterate]
    · have h0 : (end_ - i).toNat = 0 := by omega
      rw [FOR_RANGE.loop, if_neg hlt, h0, FOR_RANGE.iterate]

/-- The loop needs `(end_ - i).toNat` iterations: any larger bound gives the same
result, so the bound `FOR_RANGE` passes never cuts the loop short. -/
theorem FOR_RANGE.loop_fuel {σ : Type} (end_ : Int) (body : Int → σ → σ) (fuel : Nat) (i : Int)
    (s : σ) (h : (end_ - i).toNat ≤ fuel) :
    FOR_RANGE.loop end_ body fuel i s = FOR_RANGE.loop end_ body (end_ - i).toNat i s := by
  rw [FOR_RANGE.loop_eq_iterate end_ body fuel i s h,
    FOR_RANGE.loop_eq_iterate end_ body _ i s (le_refl _)]

theorem FOR_RANGE_eq_iterate {σ : Type} (n : Int) (body : Int → σ → σ) (s : σ) :
    FOR_RANGE 0 n body s = FOR_RANGE.iterate body n.toNat 0 s := by
  unfold FOR_RANGE
  simpa using FOR_RANGE.loop_eq_iterate n body (n - 0).toNat 0 s (le_refl _)

theorem cpuSegment_succ (first : Int) (n : Nat) :
    cpuSegment first (n + 1) = Thread.CpuThread first :: cpuSegment (first + 1) n := by
  simp only [cpuSegment, List.range_succ_eq_map, List.map_cons, List.map_map]
  refine congrArg₂ _ (by simp) (List.map_congr_left fun k _ => ?_)
  simp only [Function.comp, Nat.cast_succ]
  congr 1
  ring

theorem cpuSegment_one (first : Int) : cpuSegment first 1 = [Thread.CpuThread first] := by
  rw [cpuSegment_succ]
  rfl

theorem gpuSegment_shift_succ (first dev : Int) (n : Nat) :
    (List.range (n + 1)).map (fun (k : Nat) => Thread.GpuThread (first + (k : Int)) (dev + (k : Int))) =
      Thread.GpuThread first dev ::
        (List.range n).map
          (fun (k : Nat) => Thread.GpuThread (first + 1 + (k : Int)) (dev + 1 + (k : Int))) := by
  simp only [List.range_succ_eq_map, List.map_cons, List.map_map]
  refine congrArg₂ _ (by simp) (List.map_congr_left fun k _ => ?_)
  simp only [Function.comp, Nat.cast_succ]
  congr 1 <;> ring

theorem iterate_cpu (n : Nat) : ∀ (i : Int) (s : CtorState),
    FOR_RANGE.iterate ADD_CPU_THREAD.body n i s =
      { threads_ := s.threads_ ++ cpuSegment s.thrd_id n, thrd_id := s.thrd_id + (n : Int) } := by
  induction n with
  | zero => intro i s; simp [FOR_RANGE.iterate, cpuSegment]
  | succ n ih =>
    intro i s
    rw [FOR_RANGE.iterate, ih, cpuSegment_succ]
    simp only [ADD_CPU_THREAD.body, push_back, List.append_assoc, List.singleton_append,
      Nat.cast_succ]
    congr 1
    ring

theorem iterate_gpu (n : Nat) : ∀ (i : Int) (s : CtorState),
    FOR_RANGE.iterate ADD_GPU_THREAD.body n i s =
      { threads_ := s.threads_ ++
          (List.range n).map (fun (k : Nat) => Thread.GpuThread (s.thrd_id + (k : Int)) (i + (k : Int)))
        thrd_id := s.thrd_id + (n : Int) } := by
  induction n with
  | zero => intro i s; simp [FOR_RANGE.iterate]
  | succ n ih =>
    intro i s
    rw [FOR_RANGE.iterate, ih, gpuSegment_shift_succ]
    simp only [ADD_GPU_THREAD.body, push_back, List.append_assoc, List.singleton_append,
      Nat.cast_succ]
    congr 1
    ring

theorem ADD_CPU_THREAD_eq (n : Int) (s : CtorState) :
    ADD_CPU_THREAD n s =
      { threads_ := s.threads_ ++ cpuSegment s.thrd_id n.toNat
        thrd_id := s.thrd_id + (n.toNat : Int) } := by
  rw [ADD_CPU_THREAD, FOR_RANGE_eq_iterate, iterate_cpu]

theorem ADD_GPU_THREAD_eq (WITH_CUDA : Bool) (job_desc : JobDesc) (s : CtorState) :
    ADD_GPU_THREAD WITH_CUDA job_desc s =
      { threads_ := s.threads_ ++ gpuSegment s.thrd_id (gpuCount WITH_CUDA job_desc)
        thrd_id := s.thrd_id + (gpuCount WITH_CUDA job_desc : Int) } := by
  cases WITH_CUDA with
  | false => simp [ADD_GPU_THREAD, gpuCount, gpuSegment]
  | true =>
    simp only [ADD_GPU_THREAD, gpuCount, if_true]
    rw [FOR_RANGE_eq_iterate, iterate_gpu]
    simp [gpuSegment]

/-- The closed form of the state at the end of the constructor body. -/
theorem ctorBody_eq (WITH_CUDA : Bool) (job_desc : JobDesc) :
    ThreadMgr.ctorBody WITH_CUDA job_desc =
      { threads_ :=
          cpuSegment 0 job_desc.CpuDeviceNum.toNat ++
          (gpuSegment (job_desc.CpuDeviceNum.toNat : Int) (gpuCount WITH_CUDA job_desc) ++
          (cpuSegment ((job_desc.CpuDeviceNum.toNat : Int) + (gpuCount WITH_CUDA job_desc : Int))
            job_desc.DecodeWorkerNum.toNat ++
          (cpuSegment ((job_desc.CpuDeviceNum.toNat : Int) + (gpuCount WITH_CUDA job_desc : Int) +
            (job_desc.DecodeWorkerNum.toNat : Int)) job_desc.BoxingWorkerNum.toNat ++
          (cpuSegment ((job_desc.CpuDeviceNum.toNat : Int) + (gpuCount WITH_CUDA job_desc : Int) +
            (job_desc.DecodeWorkerNum.toNat : Int) + (job_desc.BoxingWorkerNum.toNat : Int)) 1 ++
          cpuSegment ((job_desc.CpuDeviceNum.toNat : Int) + (gpuCount WITH_CUDA job_desc : Int) +
            (job_desc.DecodeWorkerNum.toNat : Int) + (job_desc.BoxingWorkerNum.toNat : Int) + 1)
            job_desc.PersistenceWorkerNum.toNat))))
        thrd_id := (job_desc.CpuDeviceNum.toNat : Int) + (gpuCount WITH_CUDA job_desc : Int) +
            (job_desc.DecodeWorkerNum.toNat : Int) + (job_desc.BoxingWorkerNum.toNat : Int) + 1 +
            (job_desc.PersistenceWorkerNum.toNat : Int) } := by
  simp only [ThreadMgr.ctorBody, ADD_CPU_THREAD_eq, ADD_GPU_THREAD_eq, List.nil_append,
    List.append_assoc, zero_add]
  rfl

theorem cpuSegment_length (first : Int) (n : Nat) : (cpuSegment first n).length = n := by
  simp [cpuSegment]

theorem gpuSegment_length (first : Int) (n : Nat) : (gpuSegment first n).length = n := by
  simp [gpuSegment]

/-- The number of workers the constructor creates. -/
theorem ctorBody_length (WITH_CUDA : Bool) (job_desc : JobDesc) :
    (ThreadMgr.ctorBody WITH_CUDA job_desc).threads_.length =
      job_desc.CpuDeviceNum.toNat + gpuCount WITH_CUDA job_desc +
        job_desc.DecodeWorkerNum.toNat + job_desc.BoxingWorkerNum.toNat + 1 +
        job_desc.PersistenceWorkerNum.toNat := by
  rw [ctorBody_eq]
  simp only [List.length_append, cpuSegment_length, gpuSegment_length]
  omega

/-! ## Lemmas on the IDs handed out by the constructor -/

theorem denseIds_push {s : CtorState} (h : DenseIds s) (t : Thread)
    (ht : t.thrd_id = s.thrd_id) :
    DenseIds { threads_ := push_back s.threads_ t, thrd_id := s.thrd_id + 1 } := by
  refine ⟨by simp [push_back, h.1], ?_⟩
  intro i x hx
  simp only [push_back] at hx
  by_cases hi : i < s.threads_.length
  · rw [List.getElem?_append_left hi] at hx
    exact h.2 i x hx
  · have hle : s.threads_.length ≤ i := Nat.le_of_not_lt hi
    rw [List.getElem?_append_right hle] at hx
    cases hk : i - s.threads_.length with
    | zero =>
      rw [hk] at hx
      simp only [List.getElem?_cons_zero, Option.some.injEq] at hx
      have hi' : i = s.threads_.length := by omega
      rw [← hx, ht, h.1, hi']
    | succ k =>
      rw [hk] at hx
      simp at hx

theorem denseIds_iterate {body : Int → CtorState → CtorState}
    (hbody : ∀ (i : Int) (s : CtorState), DenseIds s → DenseIds (body i s)) (n : Nat) :
    ∀ (i : Int) (s : CtorState), DenseIds s → DenseIds (FOR_RANGE.iterate body n i s) := by
  induction n with
  | zero => intro i s h; exact h
  | succ n ih => intro i s h; exact ih (i + 1) (body i s) (hbody i s h)

theorem denseIds_ADD_CPU_THREAD (n : Int) {s : CtorState} (h : DenseIds s) :
    DenseIds (ADD_CPU_THREAD n s) := by
  rw [oneflow.ADD_CPU_THREAD, FOR_RANGE_eq_iterate]
  exact @denseIds_iterate ADD_CPU_THREAD.body
    (fun _ s hs => denseIds_push hs (Thread.CpuThread s.thrd_id) rfl) _ _ _ h

theorem denseIds_ADD_GPU_THREAD (WITH_CUDA : Bool) (job_desc : JobDesc) {s : CtorState}
    (h : DenseIds s) : DenseIds (ADD_GPU_THREAD WITH_CUDA job_desc s) := by
  cases WITH_CUDA with
  | false => exact h
  | true =>
    simp only [oneflow.ADD_GPU_THREAD, if_true]
    rw [FOR_RANGE_eq_iterate]
    exact @denseIds_iterate ADD_GPU_THREAD.body
      (fun i s hs => denseIds_push hs (Thread.GpuThread s.thrd_id i) rfl) _ _ _ h

/-- The invariant holds at the end of the constructor body. -/
theorem ctorBody_denseIds (WITH_CUDA : Bool) (job_desc : JobDesc) :
    DenseIds (ThreadMgr.ctorBody WITH_CUDA job_desc) := by
  have h0 : DenseIds { threads_ := [], thrd_id := 0 } := ⟨rfl, by simp⟩
  exact denseIds_ADD_CPU_THREAD _ (denseIds_ADD_CPU_THREAD _ (denseIds_ADD_CPU_THREAD _
    (denseIds_ADD_CPU_THREAD _ (denseIds_ADD_GPU_THREAD _ _ (denseIds_ADD_CPU_THREAD _ h0)))))

/-- The counter `thrd_id` ends at the roster size and every ID handed out is a
roster position: on a roster of fewer than `2 ^ 63` workers no value the counter
takes leaves the `int64_t` range. -/
theorem thrd_id_in_int64 (WITH_CUDA : Bool) (job_desc : JobDesc) :
    (ThreadMgr.ctorBody WITH_CUDA job_desc).thrd_id =
        ((ThreadMgr.ctorBody WITH_CUDA job_desc).threads_.length : Int) ∧
      ∀ t ∈ (ThreadMgr.ctorBody WITH_CUDA job_desc).threads_,
        0 ≤ t.thrd_id ∧
          t.thrd_id < ((ThreadMgr.ctorBody WITH_CUDA job_desc).threads_.length : Int) := by
  have h := ctorBody_denseIds WITH_CUDA job_desc
  refine ⟨h.1, fun t ht => ?_⟩
  obtain ⟨i, hi, hget⟩ := List.getElem_of_mem ht
  have hsome : (ThreadMgr.ctorBody WITH_CUDA job_desc).threads_[i]? = some t := by
    rw [List.getElem?_eq_getElem hi, hget]
  rw [h.2 i t hsome]
  exact ⟨Int.natCast_nonneg i, by exact_mod_cast hi⟩

/-- Lookup in a roster with dense IDs, through the `int64_t -> size_t` conversion. -/
theorem GetThrd_of_dense (threads_ : List Thread)
    (hdense : ∀ (i : Nat) (t : Thread), threads_[i]? = some t → t.thrd_id = (i : Int))
    (hsize : threads_.length < 2 ^ 63) (thrd_id : Int)
    (hlo : -2 ^ 63 ≤ thrd_id) (hhi : thrd_id < 2 ^ 63) :
    (0 ≤ thrd_id ∧ thrd_id < (threads_.length : Int) →
        ∃ t, ThreadMgr.GetThrd ⟨threads_⟩ thrd_id = .ok t ∧ t.thrd_id = thrd_id ∧
          threads_[thrd_id.toNat]? = some t) ∧
      (¬ (0 ≤ thrd_id ∧ thrd_id < (threads_.length : Int)) →
        ThreadMgr.GetThrd ⟨threads_⟩ thrd_id = .error Failure.out_of_range) ∧
      (thrd_id < 0 → 2 ^ 63 ≤ size_t_of_int64 thrd_id) := by
  refine ⟨?_, ?_, ?_⟩
  · rintro ⟨h0, hlt⟩
    have hconv : size_t_of_int64 thrd_id = thrd_id.toNat := by
      unfold size_t_of_int64
      rw [Int.emod_eq_of_lt h0 (by omega)]
    have hidx : thrd_id.toNat < threads_.length := by omega
    refine ⟨threads_[thrd_id.toNat], ?_, ?_, ?_⟩
    · simp [ThreadMgr.GetThrd, vector_at, hconv, List.getElem?_eq_getElem hidx]
    · rw [hdense thrd_id.toNat _ (List.getElem?_eq_getElem hidx)]
      omega
    · exact List.getElem?_eq_getElem hidx
  · intro hnot
    have hge : threads_.length ≤ size_t_of_int64 thrd_id := by
      unfold size_t_of_int64
      by_cases h0 : 0 ≤ thrd_id
      · rw [Int.emod_eq_of_lt h0 (by omega)]
        omega
      · omega
    simp [ThreadMgr.GetThrd, vector_at, List.getElem?_eq_none hge]
  · intro hneg
    unfold size_t_of_int64
    omega

/-! ## Lemmas on the trace of the destructor -/

theorem dtorBody_eq (i : Nat) (tr : List Event) :
    ThreadMgr.dtorBody i tr = tr ++ stopJoinLog i := by
  simp [ThreadMgr.dtorBody, stopJoinLog, stopMsg]

theorem dtorLoop_eq (size : Nat) : ∀ (fuel i : Nat) (tr : List Event), size - i ≤ fuel →
    ThreadMgr.dtorLoop size fuel i tr =
      tr ++ (List.range' i (size - i)).flatMap stopJoinLog := by
  intro fuel
  induction fuel with
  | zero =>
    intro i tr h
    have h0 : size - i = 0 := by omega
    simp [ThreadMgr.dtorLoop, h0]
  | succ fuel ih =>
    intro i tr h
    by_cases hlt : i < size
    · have hstep : size - i = (size - (i + 1)) + 1 := by omega
      rw [ThreadMgr.dtorLoop, if_pos hlt, ih (i + 1) _ (by omega), dtorBody_eq, hstep,
        List.range'_succ, List.flatMap_cons, List.append_assoc]
    · have h0 : size - i = 0 := by omega
      rw [ThreadMgr.dtorLoop, if_neg hlt, h0]
      simp

/-- The loop of the destructor needs `size - i` iterations; a larger bound gives
the same trace. -/
theorem dtorLoop_fuel (size fuel i : Nat) (tr : List Event) (h : size - i ≤ fuel) :
    ThreadMgr.dtorLoop size fuel i tr = ThreadMgr.dtorLoop size (size - i) i tr := by
  rw [dtorLoop_eq size fuel i tr h, dtorLoop_eq size (size - i) i tr (le_refl _)]

/-- The trace of the destructor, slot by slot. -/
theorem dtor_eq (self : ThreadMgr) :
    self.dtor = (List.range self.threads_.length).flatMap stopJoinLog := by
  rw [ThreadMgr.dtor, dtorLoop_eq _ _ _ _ (by omega), List.range_eq_range']
  simp

theorem trace_length (K : Nat) : ((List.range K).flatMap stopJoinLog).length = 3 * K := by
  induction K with
  | zero => simp
  | succ K ih =>
    rw [List.range_succ, List.flatMap_append, List.length_append, ih]
    simp [stopJoinLog]
    omega

theorem trace_getElem? (K p : Nat) :
    ((List.range K).flatMap stopJoinLog)[p]? =
      if p < 3 * K then (stopJoinLog (p / 3))[p % 3]? else none := by
  induction K with
  | zero => simp
  | succ K ih =>
    rw [List.range_succ, List.flatMap_append]
    by_cases hp : p < 3 * K
    · rw [List.getElem?_append_left (by rw [trace_length]; exact hp), ih, if_pos hp,
        if_pos (by omega)]
    · have hle : 3 * K ≤ p := Nat.le_of_not_lt hp
      rw [List.getElem?_append_right (by rw [trace_length]; exact hle), trace_length]
      by_cases hq : p < 3 * (K + 1)
      · have hdiv : p / 3 = K := by omega
        have hmod : p % 3 = p - 3 * K := by omega
        rw [if_pos hq, hdiv, hmod]
        simp
      · rw [if_neg hq]
        apply List.getElem?_eq_none
        simp [stopJoinLog]
        omega

theorem sends_append (a b : List Event) : sends (a ++ b) = sends a ++ sends b := by
  induction a with
  | nil => rfl
  | cons e a ih =>
    cases e <;> simp [sends, ih]

theorem sends_trace (K : Nat) :
    sends ((List.range K).flatMap stopJoinLog) =
      (List.range K).map fun (i : Nat) => (i, stopMsg) := by
  induction K with
  | zero => rfl
  | succ K ih =>
    rw [List.range_succ, List.flatMap_append, sends_append, ih, List.map_append]
    simp [stopJoinLog, sends]

theorem count_range (K i : Nat) : (List.range K).count i = if i < K then 1 else 0 := by
  by_cases h : i < K
  · rw [if_pos h]
    exact List.count_eq_one_of_mem (List.nodup_range K) (List.mem_range.mpr h)
  · rw [if_neg h]
    exact List.count_eq_zero_of_not_mem (fun hmem => h (List.mem_range.mp hmem))

theorem filter_isGpu_cpuSegment (first : Int) (n : Nat) :
    (cpuSegment first n).filter Thread.isGpuThread = [] := by
  rw [List.filter_eq_nil_iff]
  intro t ht
  simp only [cpuSegment, List.mem_map] at ht
  obtain ⟨k, _, rfl⟩ := ht
  simp [Thread.isGpuThread]

theorem filter_isGpu_gpuSegment (first : Int) (n : Nat) :
    (gpuSegment first n).filter Thread.isGpuThread = gpuSegment first n := by
  rw [List.filter_eq_self]
  intro t ht
  simp only [gpuSegment, List.mem_map] at ht
  obtain ⟨k, _, rfl⟩ := ht
  rfl

theorem gpuSegment_getElem? (first : Int) (n k : Nat) (h : k < n) :
    (gpuSegment first n)[k]? = some (Thread.GpuThread (first + (k : Int)) (k : Int)) := by
  simp [gpuSegment, List.getElem?_range h]

/-! ## The roster built by the constructor -/

/-- C1: for every valid configuration (no count negative, and the accelerator
count zero when accelerator support is not compiled in) the constructor returns
a roster of exactly `cpu + accelerator + decode + boxing + persistence + 1`
workers; the extra one is the worker created by `ADD_CPU_THREAD(1)`, the
communication-network worker, which stands after the `cpu + accelerator +
decode + boxing` workers created before it and before the persistence workers. -/
theorem roster_size_of_valid (WITH_CUDA : Bool) (job_desc : JobDesc)
    (h : job_desc.Valid WITH_CUDA) :
    ∃ mgr, ThreadMgr.ctor WITH_CUDA job_desc = .ok mgr ∧
      (mgr.threads_.length : Int) =
        job_desc.CpuDeviceNum + job_desc.GpuDeviceNum + job_desc.DecodeWorkerNum +
          job_desc.BoxingWorkerNum + job_desc.PersistenceWorkerNum + 1 ∧
      ∃ (before after : List Thread),
        mgr.threads_ = before ++ Thread.CpuThread (before.length : Int) :: after ∧
        (before.length : Int) = job_desc.CpuDeviceNum + job_desc.GpuDeviceNum +
          job_desc.DecodeWorkerNum + job_desc.BoxingWorkerNum ∧
        (after.length : Int) = job_desc.PersistenceWorkerNum := by
  obtain ⟨hc, hg, hd, hb, hp, hcuda⟩ := h
  have hgpu : (gpuCount WITH_CUDA job_desc : Int) = job_desc.GpuDeviceNum := by
    cases WITH_CUDA with
    | false => simp [gpuCount, hcuda rfl]
    | true => simp [gpuCount, hg]
  refine ⟨_, rfl, ?_, ?_⟩
  · show (((ThreadMgr.ctorBody WITH_CUDA job_desc).threads_.length : Nat) : Int) = _
    rw [ctorBody_length]
    push_cast
    omega
  · refine ⟨cpuSegment 0 job_desc.CpuDeviceNum.toNat ++
        (gpuSegment (job_desc.CpuDeviceNum.toNat : Int) (gpuCount WITH_CUDA job_desc) ++
        (cpuSegment ((job_desc.CpuDeviceNum.toNat : Int) + (gpuCount WITH_CUDA job_desc : Int))
          job_desc.DecodeWorkerNum.toNat ++
        cpuSegment ((job_desc.CpuDeviceNum.toNat : Int) + (gpuCount WITH_CUDA job_desc : Int) +
          (job_desc.DecodeWorkerNum.toNat : Int)) job_desc.BoxingWorkerNum.toNat)),
      cpuSegment ((job_desc.CpuDeviceNum.toNat : Int) + (gpuCount WITH_CUDA job_desc : Int) +
          (job_desc.DecodeWorkerNum.toNat : Int) + (job_desc.BoxingWorkerNum.toNat : Int) + 1)
          job_desc.PersistenceWorkerNum.toNat, ?_, ?_, ?_⟩
    · show (ThreadMgr.ctorBody WITH_CUDA job_desc).threads_ = _
      rw [ctorBody_eq]
      simp only [List.length_append, cpuSegment_length, gpuSegment_length, List.append_assoc,
        Nat.cast_add]
      have h1 : cpuSegment ((job_desc.CpuDeviceNum.toNat : Int) +
          (gpuCount WITH_CUDA job_desc : Int) + (job_desc.DecodeWorkerNum.toNat : Int) +
          (job_desc.BoxingWorkerNum.toNat : Int)) 1 =
          [Thread.CpuThread ((job_desc.CpuDeviceNum.toNat : Int) +
          (gpuCount WITH_CUDA job_desc : Int) + (job_desc.DecodeWorkerNum.toNat : Int) +
          (job_desc.BoxingWorkerNum.toNat : Int))] := cpuSegment_one _
      rw [h1]
      simp [add_assoc]
    · simp only [List.length_append, cpuSegment_length, gpuSegment_length]
      push_cast
      omega
    · rw [cpuSegment_length]
      omega

/-- Witness of C1, with accelerator support: `{cpu:1, accel:2, decode:1,
boxing:1, persistence:2}` gives `1 + 2 + 1 + 1 + 2 + 1 = 8` workers. -/
theorem roster_size_of_valid_witness :
    JobDesc.Valid true ⟨1, 2, 1, 1, 2⟩ ∧
      ∃ mgr, ThreadMgr.ctor true ⟨1, 2, 1, 1, 2⟩ = .ok mgr ∧
        (mgr.threads_.length : Int) = 1 + 2 + 1 + 1 + 2 + 1 ∧
        ∃ (before after : List Thread),
          mgr.threads_ = before ++ Thread.CpuThread (before.length : Int) :: after ∧
          (before.length : Int) = 1 + 2 + 1 + 1 ∧ (after.length : Int) = 2 :=
  ⟨by decide, roster_size_of_valid true ⟨1, 2, 1, 1, 2⟩ (by decide)⟩

/-- C2: for every configuration the constructor returns a roster whose thread
IDs, read in roster order, are exactly `0, 1, ..., total - 1`: the worker at
roster position `i` was constructed with ID `i`, so the IDs are the contiguous
range `[0, total)` without gaps and without duplicates. -/
theorem thread_ids_dense (WITH_CUDA : Bool) (job_desc : JobDesc) :
    ∃ mgr, ThreadMgr.ctor WITH_CUDA job_desc = .ok mgr ∧
      mgr.threads_.map Thread.thrd_id =
        (List.range mgr.threads_.length).map (fun (i : Nat) => (i : Int)) ∧
      (∀ (i : Nat) (t : Thread), mgr.threads_[i]? = some t → t.thrd_id = (i : Int)) ∧
      (mgr.threads_.map Thread.thrd_id).Nodup := by
  have hdense := (ctorBody_denseIds WITH_CUDA job_desc).2
  have hmap : (ThreadMgr.ctorBody WITH_CUDA job_desc).threads_.map Thread.thrd_id =
      (List.range (ThreadMgr.ctorBody WITH_CUDA job_desc).threads_.length).map
        (fun (i : Nat) => (i : Int)) := by
    apply List.ext_getElem?
    intro n
    rw [List.getElem?_map, List.getElem?_map]
    by_cases hn : n < (ThreadMgr.ctorBody WITH_CUDA job_desc).threads_.length
    · rw [List.getElem?_eq_getElem hn, List.getElem?_range hn]
      simp only [Option.map_some']
      rw [hdense n _ (List.getElem?_eq_getElem hn)]
    · have hle := Nat.le_of_not_lt hn
      rw [List.getElem?_eq_none hle, List.getElem?_eq_none (by simpa using hle)]
      rfl
  refine ⟨_, rfl, hmap, hdense, ?_⟩
  show ((ThreadMgr.ctorBody WITH_CUDA job_desc).threads_.map Thread.thrd_id).Nodup
  rw [hmap]
  exact (List.nodup_range _).map Nat.cast_injective

/-- C3: on a roster built by the constructor (of fewer than `2 ^ 63` workers, as
every `std::vector` of pointers is) and for every 64-bit signed `thrd_id`,
`GetThrd(thrd_id)` succeeds exactly when `0 <= thrd_id < total`; it then returns
the worker at that position, which was constructed with ID `thrd_id`; for every
other `thrd_id` it fails with `std::out_of_range`, a negative one being converted
to an index of at least `2 ^ 63`. -/
theorem GetThrd_succeeds_iff_in_range (WITH_CUDA : Bool) (job_desc : JobDesc) (mgr : ThreadMgr)
    (thrd_id : Int) (hctor : ThreadMgr.ctor WITH_CUDA job_desc = .ok mgr)
    (hsize : mgr.threads_.length < 2 ^ 63)
    (hlo : -2 ^ 63 ≤ thrd_id) (hhi : thrd_id < 2 ^ 63) :
    ((∃ t, mgr.GetThrd thrd_id = .ok t) ↔
        (0 ≤ thrd_id ∧ thrd_id < (mgr.threads_.length : Int))) ∧
      (0 ≤ thrd_id ∧ thrd_id < (mgr.threads_.length : Int) →
        ∃ t, mgr.GetThrd thrd_id = .ok t ∧ t.thrd_id = thrd_id ∧
          mgr.threads_[thrd_id.toNat]? = some t) ∧
      (¬ (0 ≤ thrd_id ∧ thrd_id < (mgr.threads_.length : Int)) →
        mgr.GetThrd thrd_id = .error Failure.out_of_range) ∧
      (thrd_id < 0 → 2 ^ 63 ≤ size_t_of_int64 thrd_id) := by
  have hmgr : mgr = ⟨(ThreadMgr.ctorBody WITH_CUDA job_desc).threads_⟩ := by
    simp only [ThreadMgr.ctor, Except.ok.injEq] at hctor
    exact hctor.symm
  subst hmgr
  obtain ⟨hin, hout, hneg⟩ := GetThrd_of_dense _ (ctorBody_denseIds WITH_CUDA job_desc).2
    hsize thrd_id hlo hhi
  refine ⟨⟨?_, fun h => ?_⟩, hin, hout, hneg⟩
  · rintro ⟨t, ht⟩
    by_contra hnot
    rw [hout hnot] at ht
    cases ht
  · obtain ⟨t, ht, _⟩ := hin h
    exact ⟨t, ht⟩

/-- Witness of C3, on the six-worker roster of `{cpu:2, accel:0, decode:1,
boxing:1, persistence:1}`: the ID `-1` is converted to an index of at least
`2 ^ 63` and `GetThrd(-1)` fails, while `GetThrd(3)` returns the worker that was
constructed with ID 3. -/
theorem GetThrd_succeeds_iff_in_range_witness :
    ThreadMgr.ctor false ⟨2, 0, 1, 1, 1⟩ = .ok ⟨[Thread.CpuThread 0, Thread.CpuThread 1,
        Thread.CpuThread 2, Thread.CpuThread 3, Thread.CpuThread 4, Thread.CpuThread 5]⟩ ∧
      ThreadMgr.GetThrd ⟨[Thread.CpuThread 0, Thread.CpuThread 1, Thread.CpuThread 2,
        Thread.CpuThread 3, Thread.CpuThread 4, Thread.CpuThread 5]⟩ (-1) =
          .error Failure.out_of_range ∧
      2 ^ 63 ≤ size_t_of_int64 (-1) ∧
      ∃ t, ThreadMgr.GetThrd ⟨[Thread.CpuThread 0, Thread.CpuThread 1, Thread.CpuThread 2,
        Thread.CpuThread 3, Thread.CpuThread 4, Thread.CpuThread 5]⟩ 3 = .ok t ∧
          t.thrd_id = 3 ∧
          [Thread.CpuThread 0, Thread.CpuThread 1, Thread.CpuThread 2,
            Thread.CpuThread 3, Thread.CpuThread 4, Thread.CpuThread 5][(3 : Int).toNat]? =
              some t :=
  have hneg := GetThrd_succeeds_iff_in_range false ⟨2, 0, 1, 1, 1⟩
    ⟨[Thread.CpuThread 0, Thread.CpuThread 1, Thread.CpuThread 2, Thread.CpuThread 3,
      Thread.CpuThread 4, Thread.CpuThread 5]⟩ (-1) (by decide) (by decide) (by decide)
    (by decide)
  have hpos := GetThrd_succeeds_iff_in_range false ⟨2, 0, 1, 1, 1⟩
    ⟨[Thread.CpuThread 0, Thread.CpuThread 1, Thread.CpuThread 2, Thread.CpuThread 3,
      Thread.CpuThread 4, Thread.CpuThread 5]⟩ 3 (by decide) (by decide) (by decide)
    (by decide)
  ⟨by decide, hneg.2.2.1 (by decide), hneg.2.2.2 (by decide), hpos.2.1 (by decide)⟩

/-- C4: for every valid configuration the roster is laid out in the fixed order
CPU, accelerator, decode, boxing, communication-network, persistence: it is the
`cpu` workers `CpuThread(0..)`, then the `accel` workers `GpuThread(cpu + j, j)`,
then the `decode` workers, then the `boxing` workers, then the single
communication-network worker with ID `cpu + accel + decode + boxing`, then the
`persistence` workers, every block continuing the IDs of the one before.  The
roster is a function of the configuration alone. -/
theorem roster_layout (WITH_CUDA : Bool) (job_desc : JobDesc) (h : job_desc.Valid WITH_CUDA) :
    ThreadMgr.ctor WITH_CUDA job_desc = .ok
      { threads_ :=
          cpuSegment 0 job_desc.CpuDeviceNum.toNat ++
          gpuSegment job_desc.CpuDeviceNum job_desc.GpuDeviceNum.toNat ++
          cpuSegment (job_desc.CpuDeviceNum + job_desc.GpuDeviceNum)
            job_desc.DecodeWorkerNum.toNat ++
          cpuSegment (job_desc.CpuDeviceNum + job_desc.GpuDeviceNum + job_desc.DecodeWorkerNum)
            job_desc.BoxingWorkerNum.toNat ++
          [Thread.CpuThread (job_desc.CpuDeviceNum + job_desc.GpuDeviceNum +
            job_desc.DecodeWorkerNum + job_desc.BoxingWorkerNum)] ++
          cpuSegment (job_desc.CpuDeviceNum + job_desc.GpuDeviceNum +
            job_desc.DecodeWorkerNum + job_desc.BoxingWorkerNum + 1)
            job_desc.PersistenceWorkerNum.toNat } := by
  obtain ⟨hc, hg, hd, hb, hp, hcuda⟩ := h
  have hgpu : gpuCount WITH_CUDA job_desc = job_desc.GpuDeviceNum.toNat := by
    cases WITH_CUDA with
    | false => simp [gpuCount, hcuda rfl]
    | true => simp [gpuCount]
  rw [ThreadMgr.ctor, ctorBody_eq, hgpu, cpuSegment_one, Int.toNat_of_nonneg hc,
    Int.toNat_of_nonneg hg, Int.toNat_of_nonneg hd, Int.toNat_of_nonneg hb]
  simp only [List.append_assoc]

/-- Witness of C4, the scenario of the spec: `{cpu:2, accel:0, decode:1,
boxing:1, persistence:1}` gives six workers, IDs 0 and 1 for the CPU workers,
2 decode, 3 boxing, 4 communication-network, 5 persistence; `GetThrd(4)` is the
communication-network worker and `GetThrd(6)` fails. -/
theorem roster_layout_witness :
    JobDesc.Valid false ⟨2, 0, 1, 1, 1⟩ ∧
      ThreadMgr.ctor false ⟨2, 0, 1, 1, 1⟩ = .ok
        { threads_ := [Thread.CpuThread 0, Thread.CpuThread 1] ++ [] ++ [Thread.CpuThread 2] ++
            [Thread.CpuThread 3] ++ [Thread.CpuThread 4] ++ [Thread.CpuThread 5] } ∧
      ThreadMgr.GetThrd ⟨[Thread.CpuThread 0, Thread.CpuThread 1, Thread.CpuThread 2,
        Thread.CpuThread 3, Thread.CpuThread 4, Thread.CpuThread 5]⟩ 4 =
          .ok (Thread.CpuThread 4) ∧
      ThreadMgr.GetThrd ⟨[Thread.CpuThread 0, Thread.CpuThread 1, Thread.CpuThread 2,
        Thread.CpuThread 3, Thread.CpuThread 4, Thread.CpuThread 5]⟩ 6 =
          .error Failure.out_of_range :=
  ⟨by decide, roster_layout false ⟨2, 0, 1, 1, 1⟩ (by decide), by decide, by decide⟩

/-- C5, as the sources have it: with accelerator support compiled in, the
accelerator workers of the roster, in roster order, are `GpuThread(base + j, j)`
for `j = 0, ..., g - 1`, where `base = max(0, cpu)` is the number of CPU workers
created before them (it is `cpu` when `cpu >= 0`); so for `0 <= j < g` the `j`-th
accelerator worker has device ordinal `j`, has thread ID `max(0, cpu) + j`, and
stands at that roster position: the ordinals are `0..g-1`, each used once, in
increasing ID order. -/
theorem accelerator_workers (job_desc : JobDesc) :
    ∃ mgr, ThreadMgr.ctor true job_desc = .ok mgr ∧
      mgr.threads_.filter Thread.isGpuThread =
        gpuSegment (max 0 job_desc.CpuDeviceNum) job_desc.GpuDeviceNum.toNat ∧
      ∀ j : Int, 0 ≤ j → j < job_desc.GpuDeviceNum →
        (mgr.threads_.filter Thread.isGpuThread)[j.toNat]? =
            some (Thread.GpuThread (max 0 job_desc.CpuDeviceNum + j) j) ∧
          mgr.threads_[(max 0 job_desc.CpuDeviceNum + j).toNat]? =
            some (Thread.GpuThread (max 0 job_desc.CpuDeviceNum + j) j) := by
  have hbase : ((job_desc.CpuDeviceNum.toNat : Nat) : Int) = max 0 job_desc.CpuDeviceNum := by
    omega
  have hfilter : (ThreadMgr.ctorBody true job_desc).threads_.filter Thread.isGpuThread =
      gpuSegment (max 0 job_desc.CpuDeviceNum) job_desc.GpuDeviceNum.toNat := by
    rw [ctorBody_eq]
    simp only [List.filter_append, filter_isGpu_cpuSegment, filter_isGpu_gpuSegment,
      List.nil_append, List.append_nil, gpuCount, if_true, hbase]
  refine ⟨_, rfl, hfilter, ?_⟩
  intro j hj0 hj
  have hjn : j.toNat < job_desc.GpuDeviceNum.toNat := by omega
  have hjcast : ((j.toNat : Nat) : Int) = j := Int.toNat_of_nonneg hj0
  have hget := gpuSegment_getElem? (max 0 job_desc.CpuDeviceNum) _ _ hjn
  rw [hjcast] at hget
  refine ⟨by rw [hfilter]; exact hget, ?_⟩
  show (ThreadMgr.ctorBody true job_desc).threads_[(max 0 job_desc.CpuDeviceNum + j).toNat]? = _
  have hidx : (max 0 job_desc.CpuDeviceNum + j).toNat = job_desc.CpuDeviceNum.toNat + j.toNat := by
    omega
  rw [ctorBody_eq, hidx]
  simp only [gpuCount, if_true, hbase]
  rw [List.getElem?_append_right (by rw [cpuSegment_length]; omega), cpuSegment_length,
    Nat.add_sub_cancel_left, List.getElem?_append_left (by rw [gpuSegment_length]; exact hjn)]
  exact hget

/-- Witness of the amended C5: `{cpu:-2, accel:3, decode:0, boxing:0,
persistence:0}` gives the accelerator workers `GpuThread(0, 0)`, `GpuThread(1, 1)`,
`GpuThread(2, 2)`; the one of ordinal 2 stands at roster position 2. -/
theorem accelerator_workers_witness :
    ∃ mgr, ThreadMgr.ctor true ⟨-2, 3, 0, 0, 0⟩ = .ok mgr ∧
      mgr.threads_.filter Thread.isGpuThread =
        [Thread.GpuThread 0 0, Thread.GpuThread 1 1, Thread.GpuThread 2 2] ∧
      (mgr.threads_.filter Thread.isGpuThread)[(2 : Int).toNat]? =
        some (Thread.GpuThread 2 2) ∧
      mgr.threads_[(max 0 (-2) + (2 : Int)).toNat]? = some (Thread.GpuThread 2 2) := by
  obtain ⟨mgr, hctor, hfilter, hj⟩ := accelerator_workers ⟨-2, 3, 0, 0, 0⟩
  exact ⟨mgr, hctor, hfilter, hj 2 (by decide) (by decide)⟩

/-- Counterexample to C5 as stated: with accelerator support and the
configuration `{cpu:-1, accel:1, decode:0, boxing:0, persistence:0}` (accelerator
count `1 >= 0`, `j = 0`) the roster is `GpuThread(0, 0)` followed by the
communication-network worker, so the accelerator worker of ordinal 0 has thread
ID 0 and not `cpu + j = -1`. -/
theorem accelerator_thread_id_counterexample :
    ThreadMgr.ctor true ⟨-1, 1, 0, 0, 0⟩ =
        .ok ⟨[Thread.GpuThread 0 0, Thread.CpuThread 1]⟩ ∧
      ([Thread.GpuThread 0 0, Thread.CpuThread 1].filter Thread.isGpuThread)[0]? =
        some (Thread.GpuThread 0 0) ∧
      Thread.GpuThread 0 0 ≠ Thread.GpuThread (-1 + 0) 0 := by
  decide

/-- C6, as the sources have it: construction does not fail for any
configuration.  A configuration that requests a negative count of some kind, or
an accelerator count without accelerator support compiled in, gets the roster of
the valid configuration in which each such count is replaced by zero. -/
theorem ctor_never_fails (WITH_CUDA : Bool) (job_desc : JobDesc) :
    (∃ mgr, ThreadMgr.ctor WITH_CUDA job_desc = .ok mgr) ∧
      ThreadMgr.ctor WITH_CUDA job_desc ≠ .error Failure.fatal ∧
      ThreadMgr.ctor WITH_CUDA job_desc = ThreadMgr.ctor WITH_CUDA (job_desc.clamp WITH_CUDA) ∧
      (job_desc.clamp WITH_CUDA).Valid WITH_CUDA := by
  refine ⟨⟨_, rfl⟩, by simp [ThreadMgr.ctor], ?_, ?_⟩
  · have hgpu : gpuCount WITH_CUDA (job_desc.clamp WITH_CUDA) = gpuCount WITH_CUDA job_desc := by
      cases WITH_CUDA with
      | false => rfl
      | true =>
        simp only [gpuCount, JobDesc.clamp, if_true]
        omega
    have hc : (job_desc.clamp WITH_CUDA).CpuDeviceNum.toNat = job_desc.CpuDeviceNum.toNat := by
      simp only [JobDesc.clamp]; omega
    have hd : (job_desc.clamp WITH_CUDA).DecodeWorkerNum.toNat =
        job_desc.DecodeWorkerNum.toNat := by
      simp only [JobDesc.clamp]; omega
    have hb : (job_desc.clamp WITH_CUDA).BoxingWorkerNum.toNat =
        job_desc.BoxingWorkerNum.toNat := by
      simp only [JobDesc.clamp]; omega
    have hp : (job_desc.clamp WITH_CUDA).PersistenceWorkerNum.toNat =
        job_desc.PersistenceWorkerNum.toNat := by
      simp only [JobDesc.clamp]; omega
    rw [ThreadMgr.ctor, ThreadMgr.ctor, ctorBody_eq, ctorBody_eq, hgpu, hc, hd, hb, hp]
  · refine ⟨?_, ?_, ?_, ?_, ?_, ?_⟩
    · exact le_max_left _ _
    · cases WITH_CUDA with
      | false => exact le_refl _
      | true => exact le_max_left _ _
    · exact le_max_left _ _
    · exact le_max_left _ _
    · exact le_max_left _ _
    · intro h
      subst h
      rfl

/-- Counterexample to C6 as stated: without accelerator support, the
configuration `{cpu:2, accel:0, decode:-3, boxing:1, persistence:1}`, which
requests a negative decode count, and the configuration `{cpu:1, accel:2,
decode:0, boxing:0, persistence:0}`, which requests accelerator workers, are
both invalid, and the constructor returns a roster for each. -/
theorem ctor_fails_counterexample :
    ¬ JobDesc.Valid false ⟨2, 0, -3, 1, 1⟩ ∧
      ThreadMgr.ctor false ⟨2, 0, -3, 1, 1⟩ = .ok ⟨[Thread.CpuThread 0, Thread.CpuThread 1,
        Thread.CpuThread 2, Thread.CpuThread 3, Thread.CpuThread 4]⟩ ∧
      ¬ JobDesc.Valid false ⟨1, 2, 0, 0, 0⟩ ∧
      ThreadMgr.ctor false ⟨1, 2, 0, 0, 0⟩ =
        .ok ⟨[Thread.CpuThread 0, Thread.CpuThread 1]⟩ := by
  decide

/-- C10: for every configuration, negative counts included, the constructor
completes, and a count `n <= 0` adds no worker: the roster has
`1 + max(0, cpu) + max(0, decode) + max(0, boxing) + max(0, persistence)` workers,
plus `max(0, accel)` when accelerator support is compiled in.  So the roster is
never empty and `GetThrd(0)` succeeds. -/
theorem ctor_completes_for_every_configuration (WITH_CUDA : Bool) (job_desc : JobDesc) :
    ∃ mgr, ThreadMgr.ctor WITH_CUDA job_desc = .ok mgr ∧
      (mgr.threads_.length : Int) =
        1 + max 0 job_desc.CpuDeviceNum + max 0 job_desc.DecodeWorkerNum +
          max 0 job_desc.BoxingWorkerNum + max 0 job_desc.PersistenceWorkerNum +
          (if WITH_CUDA then max 0 job_desc.GpuDeviceNum else 0) ∧
      mgr.threads_ ≠ [] ∧
      (∃ t, mgr.GetThrd 0 = .ok t) ∧
      (∀ (n : Int) (s : CtorState), n ≤ 0 → ADD_CPU_THREAD n s = s) ∧
      (∀ (s : CtorState), job_desc.GpuDeviceNum ≤ 0 → ADD_GPU_THREAD WITH_CUDA job_desc s = s) := by
  have hlen := ctorBody_length WITH_CUDA job_desc
  have hpos : 0 < (ThreadMgr.ctorBody WITH_CUDA job_desc).threads_.length := by omega
  refine ⟨_, rfl, ?_, ?_, ?_, ?_, ?_⟩
  · show (((ThreadMgr.ctorBody WITH_CUDA job_desc).threads_.length : Nat) : Int) = _
    rw [hlen]
    cases WITH_CUDA with
    | false =>
      simp only [gpuCount, Bool.false_eq_true, if_false]
      push_cast
      omega
    | true =>
      simp only [gpuCount, if_true]
      push_cast
      omega
  · exact List.ne_nil_of_length_pos hpos
  · refine ⟨(ThreadMgr.ctorBody WITH_CUDA job_desc).threads_[0], ?_⟩
    have h0 : size_t_of_int64 0 = 0 := by decide
    simp [ThreadMgr.GetThrd, vector_at, h0, List.getElem?_eq_getElem hpos]
  · intro n s hn
    have h0 : n.toNat = 0 := by omega
    rw [ADD_CPU_THREAD_eq, h0]
    simp [cpuSegment]
  · intro s hn
    have h0 : gpuCount WITH_CUDA job_desc = 0 := by
      unfold gpuCount
      split <;> omega
    rw [ADD_GPU_THREAD_eq, h0]
    simp [gpuSegment]

/-- Witness of C10: without accelerator support, `{cpu:-4, accel:7, decode:-1,
boxing:0, persistence:-2}` gives the roster of the communication-network worker
alone, and `GetThrd(0)` returns it. -/
theorem ctor_completes_for_every_configuration_witness :
    ThreadMgr.ctor false ⟨-4, 7, -1, 0, -2⟩ = .ok ⟨[Thread.CpuThread 0]⟩ ∧
      ThreadMgr.GetThrd ⟨[Thread.CpuThread 0]⟩ 0 = .ok (Thread.CpuThread 0) ∧
      ∃ mgr, ThreadMgr.ctor false ⟨-4, 7, -1, 0, -2⟩ = .ok mgr ∧
        (mgr.threads_.length : Int) = 1 + max 0 (-4) + max 0 (-1) + max 0 0 + max 0 (-2) + 0 ∧
        mgr.threads_ ≠ [] ∧ ∃ t, mgr.GetThrd 0 = .ok t := by
  obtain ⟨mgr, hctor, hlen, hne, hget, _⟩ :=
    ctor_completes_for_every_configuration false ⟨-4, 7, -1, 0, -2⟩
  exact ⟨by decide, by decide, mgr, hctor, hlen, hne, hget⟩

/-! ## The CPU device context -/

/-- C7: for every callback and every state, `CpuDeviceCtx::AddCallBack(cb)` runs
`cb` exactly once, inline, before it returns: the state after the call is the
state after one run of `cb` (a callback that counts its runs goes from 0 to 1),
and the context itself is unchanged. -/
theorem AddCallBack_runs_callback_once {σ : Type} (self : CpuDeviceCtx) (callback : σ → σ)
    (s : σ) :
    self.AddCallBack callback s = (self, callback s) ∧
      self.AddCallBack (counted callback) (s, 0) = (self, (callback s, 1)) :=
  ⟨rfl, rfl⟩

/-! ## The destructor -/

/-- C8: for every roster of `K >= 0` workers the destructor sends exactly `K`
messages, one to the message channel of each roster slot, in roster order, and
each is `ActorMsg::BuildCommandMsg(-1, ActorCmd::kStopThread)`: slot `i` receives
one stop command when `i < K`, and no slot receives two. -/
theorem dtor_sends_one_stop_per_worker (self : ThreadMgr) :
    sends self.dtor = (List.range self.threads_.length).map
        (fun (i : Nat) => (i, ActorMsg.BuildCommandMsg (-1) ActorCmd.kStopThread)) ∧
      (sends self.dtor).length = self.threads_.length ∧
      (∀ i : Nat, (sendSlots self.dtor).count i = if i < self.threads_.length then 1 else 0) ∧
      ∀ p ∈ sends self.dtor, p.2 = ActorMsg.BuildCommandMsg (-1) ActorCmd.kStopThread := by
  have hsends : sends self.dtor = (List.range self.threads_.length).map
      (fun (i : Nat) => (i, ActorMsg.BuildCommandMsg (-1) ActorCmd.kStopThread)) := by
    rw [dtor_eq, sends_trace]
    rfl
  refine ⟨hsends, by rw [hsends]; simp, ?_, ?_⟩
  · intro i
    have hslots : sendSlots self.dtor = List.range self.threads_.length := by
      rw [sendSlots, hsends, List.map_map]
      exact List.map_id _
    rw [hslots, count_range]
  · intro p hp
    rw [hsends] at hp
    obtain ⟨i, _, rfl⟩ := List.mem_map.mp hp
    rfl

/-- Witness of C8 on a roster of two workers. -/
theorem dtor_sends_one_stop_per_worker_witness :
    sends (ThreadMgr.dtor ⟨[Thread.CpuThread 0, Thread.GpuThread 1 0]⟩) =
      [(0, ActorMsg.BuildCommandMsg (-1) ActorCmd.kStopThread),
        (1, ActorMsg.BuildCommandMsg (-1) ActorCmd.kStopThread)] :=
  (dtor_sends_one_stop_per_worker ⟨[Thread.CpuThread 0, Thread.GpuThread 1 0]⟩).1

/-- C9: the trace of the destructor over a roster of `K` workers is, for
`i = 0, ..., K - 1` in turn, the stop command sent to worker `i`, the release
`delete threads_[i]` (which joins the worker), and the log line
"actor thread i finish".  They stand at positions `3 i`, `3 i + 1`, `3 i + 2` and
nowhere else: the finish line of worker `i` is not written before its release,
and both come before the stop command of worker `i + 1`, at position `3 (i + 1)`. -/
theorem dtor_trace_order (self : ThreadMgr) :
    self.dtor = (List.range self.threads_.length).flatMap
        (fun (i : Nat) => [Event.Send i (ActorMsg.BuildCommandMsg (-1) ActorCmd.kStopThread),
          Event.Delete i, Event.Log (finishLine i)]) ∧
      self.dtor.length = 3 * self.threads_.length ∧
      (∀ i : Nat, i < self.threads_.length →
        self.dtor[3 * i]? =
            some (Event.Send i (ActorMsg.BuildCommandMsg (-1) ActorCmd.kStopThread)) ∧
          self.dtor[3 * i + 1]? = some (Event.Delete i) ∧
          self.dtor[3 * i + 2]? = some (Event.Log (finishLine i))) ∧
      (∀ (p i : Nat) (msg : ActorMsg), self.dtor[p]? = some (Event.Send i msg) → p = 3 * i) ∧
      (∀ p i : Nat, self.dtor[p]? = some (Event.Delete i) → p = 3 * i + 1) ∧
      (∀ p i : Nat, self.dtor[p]? = some (Event.Log (finishLine i)) → p = 3 * i + 2) := by
  have hget : ∀ p : Nat, self.dtor[p]? =
      if p < 3 * self.threads_.length then (stopJoinLog (p / 3))[p % 3]? else none := by
    intro p
    rw [dtor_eq, trace_getElem?]
  have hcases : ∀ (p : Nat) (e : Event), self.dtor[p]? = some e →
      (p = 3 * (p / 3) ∧ e = Event.Send (p / 3) stopMsg) ∨
      (p = 3 * (p / 3) + 1 ∧ e = Event.Delete (p / 3)) ∨
      (p = 3 * (p / 3) + 2 ∧ e = Event.Log (finishLine (p / 3))) := by
    intro p e hp
    rw [hget p] at hp
    split at hp
    · have hmod : p % 3 = 0 ∨ p % 3 = 1 ∨ p % 3 = 2 := by omega
      rcases hmod with h | h | h
      · left
        rw [h] at hp
        simp only [stopJoinLog, List.getElem?_cons_zero, Option.some.injEq] at hp
        exact ⟨by omega, hp.symm⟩
      · right; left
        rw [h] at hp
        simp only [stopJoinLog, List.getElem?_cons_succ, List.getElem?_cons_zero,
          Option.some.injEq] at hp
        exact ⟨by omega, hp.symm⟩
      · right; right
        rw [h] at hp
        simp only [stopJoinLog, List.getElem?_cons_succ, List.getElem?_cons_zero,
          Option.some.injEq] at hp
        exact ⟨by omega, hp.symm⟩
    · cases hp
  refine ⟨dtor_eq self, by rw [dtor_eq, trace_length], ?_, ?_, ?_, ?_⟩
  · intro i hi
    refine ⟨?_, ?_, ?_⟩
    · rw [hget, if_pos (by omega)]
      have hd : 3 * i / 3 = i := by omega
      have hm : 3 * i % 3 = 0 := by omega
      rw [hd, hm]
      rfl
    · rw [hget, if_pos (by omega)]
      have hd : (3 * i + 1) / 3 = i := by omega
      have hm : (3 * i + 1) % 3 = 1 := by omega
      rw [hd, hm]
      rfl
    · rw [hget, if_pos (by omega)]
      have hd : (3 * i + 2) / 3 = i := by omega
      have hm : (3 * i + 2) % 3 = 2 := by omega
      rw [hd, hm]
      rfl
  · intro p i msg hp
    rcases hcases p _ hp with ⟨hpos, he⟩ | ⟨_, he⟩ | ⟨_, he⟩
    · simp only [Event.Send.injEq] at he
      rw [he.1]
      exact hpos
    · cases he
    · cases he
  · intro p i hp
    rcases hcases p _ hp with ⟨_, he⟩ | ⟨hpos, he⟩ | ⟨_, he⟩
    · cases he
    · simp only [Event.Delete.injEq] at he
      rw [he]
      exact hpos
    · cases he
  · intro p i hp
    rcases hcases p _ hp with ⟨_, he⟩ | ⟨_, he⟩ | ⟨hpos, he⟩
    · cases he
    · cases he
    · simp only [Event.Log.injEq, finishLine, List.cons.injEq, LogPart.num.injEq, true_and,
        and_true] at he
      rw [he]
      exact hpos

/-- Witness of C9 on a roster of two workers: the six calls of the destructor. -/
theorem dtor_trace_order_witness :
    ThreadMgr.dtor ⟨[Thread.CpuThread 0, Thread.CpuThread 1]⟩ =
      [Event.Send 0 (ActorMsg.BuildCommandMsg (-1) ActorCmd.kStopThread), Event.Delete 0,
        Event.Log [LogPart.str "actor thread ", LogPart.num 0, LogPart.str " finish"],
        Event.Send 1 (ActorMsg.BuildCommandMsg (-1) ActorCmd.kStopThread), Event.Delete 1,
        Event.Log [LogPart.str "actor thread ", LogPart.num 1, LogPart.str " finish"]] :=
  (dtor_trace_order ⟨[Thread.CpuThread 0, Thread.CpuThread 1]⟩).1

/-- Witness of C2: the IDs of the roster of `{cpu:1, accel:2, decode:-1,
boxing:1, persistence:1}`, with accelerator support, are `0, ..., 5`. -/
theorem thread_ids_dense_witness :
    ∃ mgr, ThreadMgr.ctor true ⟨1, 2, -1, 1, 1⟩ = .ok mgr ∧
      mgr.threads_ = [Thread.CpuThread 0, Thread.GpuThread 1 0, Thread.GpuThread 2 1,
        Thread.CpuThread 3, Thread.CpuThread 4, Thread.CpuThread 5] ∧
      mgr.threads_.map Thread.thrd_id =
        (List.range mgr.threads_.length).map (fun (i : Nat) => (i : Int)) := by
  obtain ⟨mgr, hctor, hmap, _⟩ := thread_ids_dense true ⟨1, 2, -1, 1, 1⟩
  refine ⟨mgr, hctor, ?_, hmap⟩
  have h : ThreadMgr.ctor true ⟨1, 2, -1, 1, 1⟩ = .ok ⟨[Thread.CpuThread 0,
      Thread.GpuThread 1 0, Thread.GpuThread 2 1, Thread.CpuThread 3, Thread.CpuThread 4,
      Thread.CpuThread 5]⟩ := by decide
  rw [h] at hctor
  simp only [Except.ok.injEq] at hctor
  rw [← hctor]

end oneflow
